import Mathlib

/-!
Verification of the `SubmissionValidator` component
(`src/tests/test_submission_validator.py` of Trade-Runners/Trader).

The validator reads two `;`-delimited CSV files (submission and reference
"test" file), runs an ordered sequence of checks, and returns a list of
`(name, passed, detail)` tuples.  File existence and raw file reading are
the only external effects; they are passed in as explicit parameters
(`fexists`, `readRaw`), so that every code path of the Python function is
a pure Lean function of those parameters.
-/

namespace Trader

/-- One validation outcome, the source's `(название_проверки, успех, ошибка)`
tuple: check name, pass flag, and an optional diagnostic detail (`None` on
success in the source). -/
structure CheckResult where
  name : String
  passed : Bool
  detail : Option String
  deriving DecidableEq

/-- A parsed CSV row: the list of trimmed cell strings of one line. -/
abbrev Row := List String

/-- A parsed CSV table: rows in file order, header (if any) at index 0. -/
abbrev Table := List Row

/-- The single-quote character, by code point. -/
def squote : String := String.singleton (Char.ofNat 39)

/-- Wrap a string in single quotes, as the source's `'{x}'` interpolations. -/
def sq (s : String) : String := squote ++ s ++ squote

/-- The fixed valid HTTP method set (`self.valid_methods`), in the source's
literal order. -/
def valid_methods : List String :=
  ["GET", "POST", "PUT", "DELETE", "PATCH", "HEAD", "OPTIONS"]

/-- Failing submission-existence result. -/
def subExistsFail (p : String) : CheckResult :=
  ⟨"Проверка наличия submission файла", false, some ("Файл " ++ p ++ " не найден")⟩

/-- Passing submission-existence result. -/
def subExistsOk : CheckResult := ⟨"Проверка наличия submission файла", true, none⟩

/-- Failing test-existence result. -/
def testExistsFail (p : String) : CheckResult :=
  ⟨"Проверка наличия test файла", false, some ("Файл " ++ p ++ " не найден")⟩

/-- Passing test-existence result. -/
def testExistsOk : CheckResult := ⟨"Проверка наличия test файла", true, none⟩

/-- Failing structure result for an empty parsed submission table. -/
def structEmptyFail : CheckResult :=
  ⟨"Проверка структуры файла", false, some ("Файл submission.csv пуст")⟩

/-- Failing structure result when some row does not have exactly 3 cells. -/
def structShapeFail : CheckResult :=
  ⟨"Проверка структуры файла", false,
   some ("Некорректная структура файла: ожидается 3 колонки (uid;type;request)")⟩

/-- Passing structure result. -/
def structOk : CheckResult := ⟨"Проверка структуры файла", true, none⟩

/-- Per-row failing result for an empty cell in row `i`. -/
def emptyFail (i : Nat) : CheckResult :=
  ⟨"Проверка пустых значений (строка " ++ Nat.repr i ++ ")", false,
   some ("Строка " ++ Nat.repr i ++ ": обнаружены пустые значения")⟩

/-- Per-row failing result for a duplicated uid in row `i`. -/
def dupFail (i : Nat) (uid : String) : CheckResult :=
  ⟨"Проверка уникальности uid (строка " ++ Nat.repr i ++ ")", false,
   some ("Строка " ++ Nat.repr i ++ ": дублирование uid " ++ sq uid)⟩

/-- The alphabetically sorted method listing used in the method-failure
message (`', '.join(sorted(self.valid_methods))`). -/
def methodsSorted : String :=
  String.intercalate (", ") (List.insertionSort (fun a b => a ≤ b) valid_methods)

/-- Per-row failing result for an invalid HTTP method in row `i`. -/
def methodFail (i : Nat) (method : String) : CheckResult :=
  ⟨"Проверка валидности HTTP метода (строка " ++ Nat.repr i ++ ")", false,
   some ("Строка " ++ Nat.repr i ++ ": некорректный HTTP метод " ++ sq method
     ++ ". Допустимые значения: " ++ methodsSorted)⟩

/-- Per-row failing result for a request path without a leading slash. -/
def pathFail (i : Nat) (request : String) : CheckResult :=
  ⟨"Проверка валидности API пути (строка " ++ Nat.repr i ++ ")", false,
   some ("Строка " ++ Nat.repr i ++ ": некорректный путь запроса " ++ sq request
     ++ ". Путь должен начинаться с " ++ sq ("/"))⟩

/-- Failing row-count result with expected and found counts. -/
def countFail (expected found : Nat) : CheckResult :=
  ⟨"Проверка соответствия количества строк", false,
   some ("Некорректное количество строк: ожидается " ++ Nat.repr expected
     ++ ", найдено " ++ Nat.repr found)⟩

/-- Passing row-count result. -/
def countOk : CheckResult := ⟨"Проверка соответствия количества строк", true, none⟩

/-- Sorted truncated uid listing of the aggregate failure messages:
`', '.join(sorted(uids)[:5])` plus an ellipsis when more than 5 uids. -/
def truncatedList (uids : List String) : String :=
  String.intercalate (", ") ((List.insertionSort (fun a b => a ≤ b) uids).take 5)
    ++ (if uids.length > 5 then "..." else "")

/-- Failing missing-uids coverage result. -/
def missingFail (uids : List String) : CheckResult :=
  ⟨"Проверка наличия всех uid из test.csv", false,
   some ("Отсутствуют записи для uid: " ++ truncatedList uids)⟩

/-- Passing missing-uids coverage result. -/
def missingOk : CheckResult := ⟨"Проверка наличия всех uid из test.csv", true, none⟩

/-- Failing extra-uids result. -/
def extraFail (uids : List String) : CheckResult :=
  ⟨"Проверка отсутствия лишних uid", false,
   some ("Обнаружены лишние uid, отсутствующие в test.csv: " ++ truncatedList uids)⟩

/-- Passing extra-uids result. -/
def extraOk : CheckResult := ⟨"Проверка отсутствия лишних uid", true, none⟩

/-- Failing file-processing result produced by the `except Exception` clause. -/
def procFail (e : String) : CheckResult :=
  ⟨"Проверка обработки файлов", false, some ("Ошибка при обработке файлов: " ++ e)⟩

/-- Python's `str.startswith`, on the character lists of the two strings. -/
def startswith (s pre : String) : Bool := pre.data.isPrefixOf s.data

/-- Python `set.add` on a duplicate-free list model of a set. -/
def setInsert (s : List String) (x : String) : List String :=
  if s.contains x then s else s ++ [x]

/-- Python set built from an iterable (the `{row[0] for row in ...}`
comprehension once the first cells are extracted). -/
def setOfList (l : List String) : List String := l.foldl setInsert []

/-- The per-row loop of `run_all_validations`
(`for i, row in enumerate(submission_rows, start=2)`), returning the emitted
results in order and the final `submission_uids` seen-set.  A row that is not
a 3-cell list is skipped (`continue`); a row with an empty cell emits one
empty-values failure and skips its remaining checks; otherwise the duplicate,
method, and path checks run and the uid is always added to the seen-set. -/
def perRowLoop : List Row → Nat → List String → List CheckResult × List String
  | [], _, submission_uids => ([], submission_uids)
  | row :: rest, i, submission_uids =>
    match row with
    | [uid, method, request] =>
      if uid = "" ∨ method = "" ∨ request = "" then
        let r := perRowLoop rest (i + 1) submission_uids
        (emptyFail i :: r.1, r.2)
      else
        let dup := if submission_uids.contains uid then [dupFail i uid] else []
        let meth := if ¬ valid_methods.contains method then [methodFail i method] else []
        let pth := if ¬ startswith request ("/") then [pathFail i request] else []
        let r := perRowLoop rest (i + 1) (setInsert submission_uids uid)
        (dup ++ meth ++ pth ++ r.1, r.2)
    | _ => perRowLoop rest (i + 1) submission_uids

/-- First cells `row[0]` of the given rows, raising like Python's
`IndexError` when a row is empty. -/
def firstCellsE : Table → Except String (List String)
  | [] => Except.ok []
  | [] :: _ => Except.error ("list index out of range")
  | (c :: _) :: rest => (firstCellsE rest).map (fun l => c :: l)

/-- The three aggregate checks run after the per-row loop: row-count match,
missing uids, extra uids. -/
def aggregates (submission_rows : List Row) (test_uids submission_uids : List String) :
    List CheckResult :=
  (if submission_rows.length ≠ test_uids.length then
    [countFail test_uids.length submission_rows.length]
   else [countOk])
  ++ (if test_uids.filter (fun u => ¬ submission_uids.contains u) ≠ [] then
        [missingFail (test_uids.filter (fun u => ¬ submission_uids.contains u))]
      else [missingOk])
  ++ (if submission_uids.filter (fun u => ¬ test_uids.contains u) ≠ [] then
        [extraFail (submission_uids.filter (fun u => ¬ test_uids.contains u))]
      else [extraOk])

/-- The reader wrapper `_read_csv`: any underlying failure is re-raised as
`Не удалось прочитать файл {path}: {e}`.  File access and csv splitting are
abstracted by `readRaw`. -/
def readCsv (readRaw : String → Except String Table) (p : String) : Except String Table :=
  match readRaw p with
  | Except.ok t => Except.ok t
  | Except.error e => Except.error ("Не удалось прочитать файл " ++ p ++ ": " ++ e)

/-- Body of the `try:` block of `run_all_validations`: read both files, check
structure, run the per-row loop and the aggregate checks.  Any raised error
is caught by the `except Exception` clause and becomes a file-processing
failure appended to the results already accumulated inside the block. -/
def tryBody (sp tp : String) (readRaw : String → Except String Table) : List CheckResult :=
  match readCsv readRaw sp with
  | Except.error e => [procFail e]
  | Except.ok submission_data =>
    match readCsv readRaw tp with
    | Except.error e => [procFail e]
    | Except.ok test_data =>
      if submission_data.length = 0 then [structEmptyFail]
      else if ¬ submission_data.all (fun row => row.length == 3) then [structShapeFail]
      else
        structOk ::
          (let submission_rows := submission_data.drop 1
           match firstCellsE (test_data.drop 1) with
           | Except.error e => [procFail e]
           | Except.ok cells =>
             let test_uids := setOfList cells
             let r := perRowLoop submission_rows 2 []
             r.1 ++ aggregates submission_rows test_uids r.2)

/-- The validator state: the stored submission path (`None` when omitted) and
the resolved test path. -/
structure SubmissionValidator where
  submission_path : Option String
  test_path : String

/-- The constructor `__init__`: when the submission path is omitted the source
stores `None` (the parameter shadows the module-level default path), and the
test path is resolved against the parent of the tests directory. -/
def SubmissionValidator.init (test_path : String) (submission_path : Option String) :
    SubmissionValidator :=
  { submission_path := submission_path, test_path := "tests/.." ++ "/" ++ test_path }

/-- `run_all_validations`.  File existence is abstracted by `fexists` and raw
reading by `readRaw`.  With an omitted submission path the source calls
`.exists()` on `None`, raising `AttributeError`; that uncaught exception is
the `Except.error` branch. -/
def run_all_validations (v : SubmissionValidator) (fexists : String → Bool)
    (readRaw : String → Except String Table) : Except String (List CheckResult) :=
  match v.submission_path with
  | none =>
    Except.error ("AttributeError: NoneType object has no attribute exists")
  | some sp =>
    if ¬ fexists sp then Except.ok [subExistsFail sp]
    else if ¬ fexists v.test_path then Except.ok [subExistsOk, testExistsFail v.test_path]
    else Except.ok ([subExistsOk, testExistsOk] ++ tryBody sp v.test_path readRaw)

/-- Numeric value of a decimal digit string: a left fold that serves as a
parser for `Nat.repr`, used to prove the representation injective. -/
def parseDigits (l : List Char) : Nat := l.foldl (fun a c => 10 * a + (c.toNat - 48)) 0

/-- First cell of a well-formed submission data row: `some uid` when the row
has exactly 3 cells, none of them empty, and `none` otherwise (such a row
never reaches the uid bookkeeping of the per-row loop). -/
def goodUid : Row → Option String
  | [uid, method, request] =>
    if uid = "" ∨ method = "" ∨ request = "" then none else some uid
  | _ => none

/-- Data row `k` (0-based) is well formed with first cell `uid`. -/
def GoodAt (rows : List Row) (k : Nat) (uid : String) : Prop :=
  ((rows.get? k).bind goodUid) = some uid

/-- C1: the claim says a validator constructed with the submission path
omitted returns normally from `run_all_validations` with a failing existence
result.  The code instead stores `None` for the path and raises
`AttributeError` on `None.exists()`: evaluated here at a concrete
environment. -/
theorem C1_omitted_path_raises :
    run_all_validations (SubmissionValidator.init ("test_.csv") none)
      (fun _ => true) (fun _ => Except.ok []) =
    Except.error ("AttributeError: NoneType object has no attribute exists") := rfl

/-- C2: when a submission path is configured but the file is absent,
`run_all_validations` returns exactly one result: a failing
submission-existence check whose detail names the missing path. -/
theorem C2_absent_submission_single_result (sp tp : String)
    (fexists : String → Bool) (readRaw : String → Except String Table)
    (h : fexists sp = false) :
    run_all_validations ⟨some sp, tp⟩ fexists readRaw =
      Except.ok [⟨"Проверка наличия submission файла", false,
        some ("Файл " ++ sp ++ " не найден")⟩] := by
  simp [run_all_validations, subExistsFail, h]

/-- C2 witness: the theorem applied to a concrete absent file. -/
theorem C2_witness :
    (fun _ : String => false) ("sub.csv") = false ∧
    run_all_validations ⟨some ("sub.csv"), "t.csv"⟩ (fun _ => false)
        (fun _ => Except.ok []) =
      Except.ok [⟨"Проверка наличия submission файла", false,
        some ("Файл " ++ "sub.csv" ++ " не найден")⟩] :=
  ⟨rfl, C2_absent_submission_single_result ("sub.csv") ("t.csv") _ _ rfl⟩

/-- C3: if both files exist and parse but some submission row (header
included) has a cell count other than 3, the run returns exactly the two
passing existence results followed by one failing structural result naming
the expected shape, and nothing else: no per-row and no aggregate results. -/
theorem C3_bad_width_single_structural_failure (sp tp : String)
    (fexists : String → Bool) (readRaw : String → Except String Table)
    (sub tst : Table)
    (h1 : fexists sp = true) (h2 : fexists tp = true)
    (h3 : readRaw sp = Except.ok sub) (h4 : readRaw tp = Except.ok tst)
    (h5 : ∃ row ∈ sub, row.length ≠ 3) :
    run_all_validations ⟨some sp, tp⟩ fexists readRaw =
      Except.ok [subExistsOk, testExistsOk, structShapeFail] := by
  obtain ⟨row, hmem, hrow⟩ := h5
  have hne : sub.length ≠ 0 := by
    intro h0
    rw [List.length_eq_zero] at h0
    subst h0
    cases hmem
  have hall : sub.all (fun row => row.length == 3) = false := by
    rw [List.all_eq_false]
    exact ⟨row, hmem, by simpa using hrow⟩
  simp [run_all_validations, h1, h2, tryBody, readCsv, h3, h4, hne, hall]

/-- C3 witness: a concrete run with a 2-cell row in the submission table. -/
theorem C3_witness :
    (fun _ : String => true) ("s.csv") = true ∧
    (∃ row ∈ [["uid", "type", "request"], ["a", "b"]], row.length ≠ 3) ∧
    run_all_validations ⟨some ("s.csv"), "t.csv"⟩ (fun _ => true)
        (fun p => if p = "s.csv" then Except.ok [["uid", "type", "request"], ["a", "b"]]
                  else Except.ok [["uid"], ["u1"]]) =
      Except.ok [subExistsOk, testExistsOk, structShapeFail] :=
  ⟨rfl, by decide,
   C3_bad_width_single_structural_failure ("s.csv") ("t.csv") _ _
     [["uid", "type", "request"], ["a", "b"]] [["uid"], ["u1"]]
     rfl rfl rfl rfl (by decide)⟩

/-! ### String-representation helpers

The per-row results embed the 1-indexed row number and the offending value
in their `name`/`detail` strings, so reasoning about which results can occur
in the output needs injectivity of the decimal rendering and a way to tell
the message families apart (they differ within their first ten characters).
-/

theorem str_data_inj {a b : String} (h : a.data = b.data) : a = b := String.ext h

theorem parseDigits_append_singleton (l : List Char) (c : Char) :
    parseDigits (l ++ [c]) = 10 * parseDigits l + (c.toNat - 48) := by
  simp [parseDigits, List.foldl_append]

theorem digitChar_toNat {m : Nat} (h : m < 10) : (Nat.digitChar m).toNat - 48 = m := by
  interval_cases m <;> rfl

theorem toDigitsCore_shift (fuel : Nat) : ∀ (n : Nat) (ds : List Char),
    Nat.toDigitsCore 10 fuel n ds = Nat.toDigitsCore 10 fuel n [] ++ ds := by
  induction fuel with
  | zero => intro n ds; simp [Nat.toDigitsCore]
  | succ fuel ih =>
    intro n ds
    simp only [Nat.toDigitsCore]
    by_cases h : n / 10 = 0
    · simp [h]
    · simp only [if_neg h]
      rw [ih (n / 10) [Nat.digitChar (n % 10)], ih (n / 10) (Nat.digitChar (n % 10) :: ds)]
      simp

theorem parseDigits_toDigitsCore : ∀ (fuel n : Nat), n < fuel →
    parseDigits (Nat.toDigitsCore 10 fuel n []) = n := by
  intro fuel
  induction fuel with
  | zero => intro n h; exact absurd h (Nat.not_lt_zero n)
  | succ fuel ih =>
    intro n h
    simp only [Nat.toDigitsCore]
    by_cases h0 : n / 10 = 0
    · have hn : n < 10 := (Nat.div_eq_zero_iff (by norm_num)).mp h0
      rw [if_pos h0]
      show parseDigits [Nat.digitChar (n % 10)] = n
      have hv : parseDigits [Nat.digitChar (n % 10)] = (Nat.digitChar (n % 10)).toNat - 48 := by
        simp [parseDigits]
      rw [hv, Nat.mod_eq_of_lt hn, digitChar_toNat hn]
    · rw [if_neg h0]
      rw [toDigitsCore_shift fuel (n / 10) [Nat.digitChar (n % 10)]]
      rw [parseDigits_append_singleton]
      have hlt : n / 10 < n := Nat.div_lt_self (by omega) (by norm_num)
      rw [ih (n / 10) (by omega)]
      rw [digitChar_toNat (Nat.mod_lt n (by norm_num))]
      have := Nat.div_add_mod n 10
      omega

theorem natRepr_inj {m n : Nat} (h : Nat.repr m = Nat.repr n) : m = n := by
  have hd := congrArg String.data h
  simp only [Nat.repr, Nat.toDigits, List.asString] at hd
  have pm := parseDigits_toDigitsCore (m + 1) m (Nat.lt_succ_self m)
  have pn := parseDigits_toDigitsCore (n + 1) n (Nat.lt_succ_self n)
  rw [hd] at pm
  omega

theorem str_ne_of_data_get {s t : String} {k : Nat} {c c2 : Char}
    (hs : s.data.get? k = some c) (ht : t.data.get? k = some c2) (hne : c ≠ c2) : s ≠ t := by
  intro he
  subst he
  rw [hs] at ht
  exact hne (Option.some.inj ht)

theorem get9_of_two_appends (lit x y : String) (hk : 9 < lit.data.length) :
    (lit ++ x ++ y).data.get? 9 = lit.data.get? 9 := by
  have h1 : 9 < (lit ++ x).data.length := by
    rw [String.data_append, List.length_append]
    omega
  rw [String.data_append, List.get?_append h1, String.data_append, List.get?_append hk]

theorem dupFail_name_get9 (i : Nat) (uid : String) :
    (dupFail i uid).name.data.get? 9 = some ('у') := by
  show ("Проверка уникальности uid (строка " ++ Nat.repr i ++ ")").data.get? 9 = some ('у')
  rw [get9_of_two_appends]
  · rfl
  · decide

theorem emptyFail_name_get9 (i : Nat) :
    (emptyFail i).name.data.get? 9 = some ('п') := by
  show ("Проверка пустых значений (строка " ++ Nat.repr i ++ ")").data.get? 9 = some ('п')
  rw [get9_of_two_appends]
  · rfl
  · decide

theorem methodFail_name_get9 (i : Nat) (m : String) :
    (methodFail i m).name.data.get? 9 = some ('в') := by
  show ("Проверка валидности HTTP метода (строка " ++ Nat.repr i ++ ")").data.get? 9 =
    some ('в')
  rw [get9_of_two_appends]
  · rfl
  · decide

theorem pathFail_name_get9 (i : Nat) (p : String) :
    (pathFail i p).name.data.get? 9 = some ('в') := by
  show ("Проверка валидности API пути (строка " ++ Nat.repr i ++ ")").data.get? 9 = some ('в')
  rw [get9_of_two_appends]
  · rfl
  · decide

theorem dupFail_ne_emptyFail (i j : Nat) (uid : String) : dupFail i uid ≠ emptyFail j := fun h =>
  str_ne_of_data_get (dupFail_name_get9 i uid) (emptyFail_name_get9 j) (by decide)
    (congrArg CheckResult.name h)

theorem dupFail_ne_methodFail (i j : Nat) (uid m : String) : dupFail i uid ≠ methodFail j m :=
  fun h =>
  str_ne_of_data_get (dupFail_name_get9 i uid) (methodFail_name_get9 j m) (by decide)
    (congrArg CheckResult.name h)

theorem dupFail_ne_pathFail (i j : Nat) (uid p : String) : dupFail i uid ≠ pathFail j p := fun h =>
  str_ne_of_data_get (dupFail_name_get9 i uid) (pathFail_name_get9 j p) (by decide)
    (congrArg CheckResult.name h)

theorem dupFail_inj {i j : Nat} {u v : String} (h : dupFail i u = dupFail j v) :
    i = j ∧ u = v := by
  have hn := congrArg (fun r => r.name.data) h
  have hdet := congrArg (fun r => r.detail) h
  simp only [dupFail, String.data_append, List.append_assoc] at hn
  have hn2 := List.append_cancel_left hn
  have hij : i = j := by
    apply natRepr_inj
    apply str_data_inj
    exact List.append_cancel_right hn2
  subst hij
  refine ⟨rfl, ?_⟩
  simp only [dupFail, Option.some.injEq] at hdet
  have hdet2 := congrArg String.data hdet
  simp only [String.data_append, List.append_assoc, sq, squote] at hdet2
  have h3 := List.append_cancel_left hdet2
  have h4 := List.append_cancel_left h3
  have h5 := List.append_cancel_left h4
  have h6 := List.append_cancel_left h5
  apply str_data_inj
  exact List.append_cancel_right h6

/-! ### Set and per-row-loop lemmas -/

theorem contains_iff {s : List String} {x : String} : s.contains x = true ↔ x ∈ s := by
  simp

theorem mem_setInsert (s : List String) (a x : String) : x ∈ setInsert s a ↔ x ∈ s ∨ x = a := by
  unfold setInsert
  by_cases h : s.contains a = true
  · rw [if_pos h]
    have ha : a ∈ s := contains_iff.mp h
    constructor
    · exact Or.inl
    · rintro (hx | rfl)
      · exact hx
      · exact ha
  · rw [if_neg h]
    simp [List.mem_append]

theorem nodup_setInsert (s : List String) (a : String) (h : s.Nodup) : (setInsert s a).Nodup := by
  unfold setInsert
  by_cases hc : s.contains a = true
  · rwa [if_pos hc]
  · rw [if_neg hc]
    have ha : a ∉ s := fun hm => hc (contains_iff.mpr hm)
    simp [List.nodup_append, h, ha]

theorem mem_foldl_setInsert (l : List String) : ∀ (s : List String) (x : String),
    x ∈ l.foldl setInsert s ↔ x ∈ s ∨ x ∈ l := by
  induction l with
  | nil => intro s x; simp
  | cons a t ih =>
    intro s x
    rw [List.foldl_cons, ih (setInsert s a) x, mem_setInsert]
    simp only [List.mem_cons]
    tauto

theorem mem_setOfList (l : List String) (x : String) : x ∈ setOfList l ↔ x ∈ l := by
  rw [setOfList, mem_foldl_setInsert]
  simp

theorem nodup_foldl_setInsert (l : List String) : ∀ (s : List String), s.Nodup →
    (l.foldl setInsert s).Nodup := by
  induction l with
  | nil => intro s h; simpa using h
  | cons a t ih => intro s h; exact ih (setInsert s a) (nodup_setInsert s a h)

theorem nodup_setOfList (l : List String) : (setOfList l).Nodup :=
  nodup_foldl_setInsert l [] List.nodup_nil

theorem goodUid_ne3 (row : Row) (h : row.length ≠ 3) : goodUid row = none := by
  rcases row with _ | ⟨a, _ | ⟨b, _ | ⟨c, _ | ⟨d, t⟩⟩⟩⟩
  · rfl
  · rfl
  · rfl
  · exact absurd rfl h
  · rfl

theorem goodAt_cons_zero_good {a b c : String} {rest : List Row} {uid : String}
    (hemp : ¬ (a = "" ∨ b = "" ∨ c = "")) :
    GoodAt ([a, b, c] :: rest) 0 uid ↔ uid = a := by
  show (goodUid [a, b, c] = some uid) ↔ uid = a
  rw [goodUid, if_neg hemp]
  constructor
  · intro h
    exact (Option.some.inj h).symm
  · intro h
    rw [h]

theorem perRowLoop_nil (n : Nat) (s : List String) : perRowLoop [] n s = ([], s) := rfl

theorem perRowLoop_cons_ne3 (row : Row) (rest : List Row) (n : Nat) (s : List String)
    (h : row.length ≠ 3) : perRowLoop (row :: rest) n s = perRowLoop rest (n + 1) s := by
  rcases row with _ | ⟨a, _ | ⟨b, _ | ⟨c, _ | ⟨d, t⟩⟩⟩⟩
  · rfl
  · rfl
  · rfl
  · exact absurd rfl h
  · rfl

theorem perRowLoop_cons3_empty (a b c : String) (rest : List Row) (n : Nat) (s : List String)
    (h : a = "" ∨ b = "" ∨ c = "") :
    perRowLoop ([a, b, c] :: rest) n s =
      (emptyFail n :: (perRowLoop rest (n + 1) s).1, (perRowLoop rest (n + 1) s).2) := by
  simp only [perRowLoop]
  rw [if_pos h]

theorem perRowLoop_cons3_good (a b c : String) (rest : List Row) (n : Nat) (s : List String)
    (h : ¬ (a = "" ∨ b = "" ∨ c = "")) :
    perRowLoop ([a, b, c] :: rest) n s =
      ((if s.contains a then [dupFail n a] else []) ++
        (if ¬ valid_methods.contains b then [methodFail n b] else []) ++
        (if ¬ startswith c ("/") then [pathFail n c] else []) ++
        (perRowLoop rest (n + 1) (setInsert s a)).1,
       (perRowLoop rest (n + 1) (setInsert s a)).2) := by
  simp only [perRowLoop]
  rw [if_neg h]

theorem mem_perRowLoop_seen (rows : List Row) : ∀ (n : Nat) (s : List String) (x : String),
    x ∈ (perRowLoop rows n s).2 ↔ x ∈ s ∨ ∃ k, GoodAt rows k x := by
  induction rows with
  | nil =>
    intro n s x
    simp [perRowLoop_nil, GoodAt]
  | cons row rest ih =>
    intro n s x
    by_cases hlen : row.length = 3
    · obtain ⟨a, b, c, rfl⟩ := List.length_eq_three.mp hlen
      by_cases hemp : a = "" ∨ b = "" ∨ c = ""
      · rw [perRowLoop_cons3_empty a b c rest n s hemp]
        dsimp only
        rw [ih (n + 1) s x]
        constructor
        · rintro (hx | ⟨k, hk⟩)
          · exact Or.inl hx
          · exact Or.inr ⟨k + 1, hk⟩
        · rintro (hx | ⟨k, hk⟩)
          · exact Or.inl hx
          · match k with
            | 0 =>
              exfalso
              have h0 : goodUid [a, b, c] = some x := hk
              rw [goodUid, if_pos hemp] at h0
              cases h0
            | k + 1 => exact Or.inr ⟨k, hk⟩
      · rw [perRowLoop_cons3_good a b c rest n s hemp]
        dsimp only
        rw [ih (n + 1) (setInsert s a) x, mem_setInsert]
        constructor
        · rintro ((hx | rfl) | ⟨k, hk⟩)
          · exact Or.inl hx
          · exact Or.inr ⟨0, (goodAt_cons_zero_good hemp).mpr rfl⟩
          · exact Or.inr ⟨k + 1, hk⟩
        · rintro (hx | ⟨k, hk⟩)
          · exact Or.inl (Or.inl hx)
          · match k with
            | 0 => exact Or.inl (Or.inr ((goodAt_cons_zero_good hemp).mp hk))
            | k + 1 => exact Or.inr ⟨k, hk⟩
    · rw [perRowLoop_cons_ne3 row rest n s hlen, ih (n + 1) s x]
      constructor
      · rintro (hx | ⟨k, hk⟩)
        · exact Or.inl hx
        · exact Or.inr ⟨k + 1, hk⟩
      · rintro (hx | ⟨k, hk⟩)
        · exact Or.inl hx
        · match k with
          | 0 =>
            exfalso
            have h0 : goodUid row = some x := hk
            rw [goodUid_ne3 row hlen] at h0
            cases h0
          | k + 1 => exact Or.inr ⟨k, hk⟩

theorem nodup_perRowLoop_seen (rows : List Row) : ∀ (n : Nat) (s : List String), s.Nodup →
    (perRowLoop rows n s).2.Nodup := by
  induction rows with
  | nil => intro n s h; simpa [perRowLoop_nil] using h
  | cons row rest ih =>
    intro n s h
    by_cases hlen : row.length = 3
    · obtain ⟨a, b, c, rfl⟩ := List.length_eq_three.mp hlen
      by_cases hemp : a = "" ∨ b = "" ∨ c = ""
      · rw [perRowLoop_cons3_empty a b c rest n s hemp]
        exact ih (n + 1) s h
      · rw [perRowLoop_cons3_good a b c rest n s hemp]
        exact ih (n + 1) (setInsert s a) (nodup_setInsert s a h)
    · rw [perRowLoop_cons_ne3 row rest n s hlen]
      exact ih (n + 1) s h

theorem mem_ite_singleton {r x : CheckResult} {c : Prop} [Decidable c] :
    r ∈ (if c then [x] else []) ↔ c ∧ r = x := by
  by_cases h : c <;> simp [h]

theorem dup_mem_perRowLoop (rows : List Row) : ∀ (n : Nat) (s : List String) (i : Nat)
    (uid : String),
    (dupFail i uid ∈ (perRowLoop rows n s).1 ↔
      ∃ k, i = n + k ∧ GoodAt rows k uid ∧
        (uid ∈ s ∨ ∃ j, j < k ∧ GoodAt rows j uid)) := by
  induction rows with
  | nil =>
    intro n s i uid
    simp [perRowLoop_nil, GoodAt]
  | cons row rest ih =>
    intro n s i uid
    by_cases hlen : row.length = 3
    · obtain ⟨a, b, c, rfl⟩ := List.length_eq_three.mp hlen
      by_cases hemp : a = "" ∨ b = "" ∨ c = ""
      · rw [perRowLoop_cons3_empty a b c rest n s hemp]
        dsimp only
        rw [List.mem_cons, ih (n + 1) s i uid]
        constructor
        · rintro (heq | ⟨k, hik, hg, hc⟩)
          · exact absurd heq (dupFail_ne_emptyFail i n uid)
          · refine ⟨k + 1, by omega, hg, ?_⟩
            rcases hc with hc | ⟨j, hj, hgj⟩
            · exact Or.inl hc
            · exact Or.inr ⟨j + 1, by omega, hgj⟩
        · rintro ⟨k, hik, hg, hc⟩
          match k with
          | 0 =>
            exfalso
            have h0 : goodUid [a, b, c] = some uid := hg
            rw [goodUid, if_pos hemp] at h0
            cases h0
          | k + 1 =>
            right
            refine ⟨k, by omega, hg, ?_⟩
            rcases hc with hc | ⟨j, hj, hgj⟩
            · exact Or.inl hc
            · match j with
              | 0 =>
                exfalso
                have h0 : goodUid [a, b, c] = some uid := hgj
                rw [goodUid, if_pos hemp] at h0
                cases h0
              | j + 1 => exact Or.inr ⟨j, by omega, hgj⟩
      · rw [perRowLoop_cons3_good a b c rest n s hemp]
        dsimp only
        rw [List.mem_append, List.mem_append, List.mem_append,
          ih (n + 1) (setInsert s a) i uid, mem_ite_singleton, mem_ite_singleton,
          mem_ite_singleton]
        constructor
        · rintro (((⟨hs, heq⟩ | ⟨hm, heq⟩) | ⟨hp, heq⟩) | ⟨k, hik, hg, hc⟩)
          · obtain ⟨hin, huid⟩ := dupFail_inj heq
            refine ⟨0, by omega, ?_, ?_⟩
            · exact (goodAt_cons_zero_good hemp).mpr huid
            · exact Or.inl (huid ▸ contains_iff.mp hs)
          · exact absurd heq (dupFail_ne_methodFail i n uid b)
          · exact absurd heq (dupFail_ne_pathFail i n uid c)
          · refine ⟨k + 1, by omega, hg, ?_⟩
            rcases hc with hc | ⟨j, hj, hgj⟩
            · rcases (mem_setInsert s a uid).mp hc with hs | rfl
              · exact Or.inl hs
              · exact Or.inr ⟨0, by omega, (goodAt_cons_zero_good hemp).mpr rfl⟩
            · exact Or.inr ⟨j + 1, by omega, hgj⟩
        · rintro ⟨k, hik, hg, hc⟩
          match k with
          | 0 =>
            have huid : uid = a := (goodAt_cons_zero_good hemp).mp hg
            rcases hc with hc | ⟨j, hj, hgj⟩
            · refine Or.inl (Or.inl (Or.inl ⟨contains_iff.mpr (huid ▸ hc), ?_⟩))
              have hin : i = n := by omega
              rw [hin, huid]
            · exact absurd hj (Nat.not_lt_zero j)
          | k + 1 =>
            right
            refine ⟨k, by omega, hg, ?_⟩
            rcases hc with hc | ⟨j, hj, hgj⟩
            · exact Or.inl ((mem_setInsert s a uid).mpr (Or.inl hc))
            · match j with
              | 0 =>
                have huid : uid = a := (goodAt_cons_zero_good hemp).mp hgj
                exact Or.inl ((mem_setInsert s a uid).mpr (Or.inr huid))
              | j + 1 => exact Or.inr ⟨j, by omega, hgj⟩
    · rw [perRowLoop_cons_ne3 row rest n s hlen, ih (n + 1) s i uid]
      constructor
      · rintro ⟨k, hik, hg, hc⟩
        refine ⟨k + 1, by omega, hg, ?_⟩
        rcases hc with hc | ⟨j, hj, hgj⟩
        · exact Or.inl hc
        · exact Or.inr ⟨j + 1, by omega, hgj⟩
      · rintro ⟨k, hik, hg, hc⟩
        match k with
        | 0 =>
          exfalso
          have h0 : goodUid row = some uid := hg
          rw [goodUid_ne3 row hlen] at h0
          cases h0
        | k + 1 =>
          refine ⟨k, by omega, hg, ?_⟩
          rcases hc with hc | ⟨j, hj, hgj⟩
          · exact Or.inl hc
          · match j with
            | 0 =>
              exfalso
              have h0 : goodUid row = some uid := hgj
              rw [goodUid_ne3 row hlen] at h0
              cases h0
            | j + 1 => exact Or.inr ⟨j, by omega, hgj⟩

/-! ### Runs that reach the per-row and aggregate checks -/

theorem run_reaches (sp tp : String) (fexists : String → Bool)
    (readRaw : String → Except String Table) (sub tst : Table) (cells : List String)
    (h1 : fexists sp = true) (h2 : fexists tp = true)
    (h3 : readRaw sp = Except.ok sub) (h4 : readRaw tp = Except.ok tst)
    (h5 : sub ≠ [])
    (h6 : sub.all (fun row => row.length == 3) = true)
    (h7 : firstCellsE (tst.drop 1) = Except.ok cells) :
    run_all_validations ⟨some sp, tp⟩ fexists readRaw = Except.ok
      ([subExistsOk, testExistsOk, structOk] ++ (perRowLoop (sub.drop 1) 2 []).1
        ++ aggregates (sub.drop 1) (setOfList cells) (perRowLoop (sub.drop 1) 2 []).2) := by
  have hlen : ¬ sub.length = 0 := by
    simpa [List.length_eq_zero] using h5
  have h7t : firstCellsE tst.tail = Except.ok cells := by
    rw [← List.drop_one]
    exact h7
  simp [run_all_validations, h1, h2, tryBody, readCsv, h3, h4, hlen, h6, h7, h7t]

theorem dupFail_ne_of_get9 {r : CheckResult} {c : Char} (i : Nat) (uid : String)
    (hr : r.name.data.get? 9 = some c) (hc : ('у') ≠ c) : dupFail i uid ≠ r := fun h =>
  str_ne_of_data_get (dupFail_name_get9 i uid) hr hc (congrArg CheckResult.name h)

theorem dupFail_ne_subExistsOk (i : Nat) (uid : String) : dupFail i uid ≠ subExistsOk :=
  dupFail_ne_of_get9 i uid rfl (by decide)

theorem dupFail_ne_testExistsOk (i : Nat) (uid : String) : dupFail i uid ≠ testExistsOk :=
  dupFail_ne_of_get9 i uid rfl (by decide)

theorem dupFail_ne_structOk (i : Nat) (uid : String) : dupFail i uid ≠ structOk :=
  dupFail_ne_of_get9 i uid rfl (by decide)

theorem dupFail_ne_countOk (i : Nat) (uid : String) : dupFail i uid ≠ countOk :=
  dupFail_ne_of_get9 i uid rfl (by decide)

theorem dupFail_ne_countFail (i : Nat) (uid : String) (e f : Nat) :
    dupFail i uid ≠ countFail e f :=
  dupFail_ne_of_get9 i uid rfl (by decide)

theorem dupFail_ne_missingOk (i : Nat) (uid : String) : dupFail i uid ≠ missingOk :=
  dupFail_ne_of_get9 i uid rfl (by decide)

theorem dupFail_ne_missingFail (i : Nat) (uid : String) (l : List String) :
    dupFail i uid ≠ missingFail l :=
  dupFail_ne_of_get9 i uid rfl (by decide)

theorem dupFail_ne_extraOk (i : Nat) (uid : String) : dupFail i uid ≠ extraOk :=
  dupFail_ne_of_get9 i uid rfl (by decide)

theorem dupFail_ne_extraFail (i : Nat) (uid : String) (l : List String) :
    dupFail i uid ≠ extraFail l :=
  dupFail_ne_of_get9 i uid rfl (by decide)

theorem dupFail_not_mem_aggregates (i : Nat) (uid : String) (rows : List Row)
    (tuids suids : List String) : dupFail i uid ∉ aggregates rows tuids suids := by
  intro h
  simp only [aggregates, List.mem_append] at h
  rcases h with (h | h) | h
  · split at h
    · exact dupFail_ne_countFail i uid _ _ (List.mem_singleton.mp h)
    · exact dupFail_ne_countOk i uid (List.mem_singleton.mp h)
  · split at h
    · exact dupFail_ne_missingFail i uid _ (List.mem_singleton.mp h)
    · exact dupFail_ne_missingOk i uid (List.mem_singleton.mp h)
  · split at h
    · exact dupFail_ne_extraFail i uid _ (List.mem_singleton.mp h)
    · exact dupFail_ne_extraOk i uid (List.mem_singleton.mp h)

/-- C4: in every run that reaches the per-row loop, a failing uniqueness
result for row number `k + 2` (rows are 1-indexed with the header as row 1)
and uid `uid` appears in the returned sequence exactly when data row `k` is
well formed with uid `uid` and some earlier well-formed data row carries the
same uid.  So each occurrence beyond the first — and only those — is
flagged, always with the row number of the later occurrence, and a third
occurrence is flagged as well because the uid is kept in the seen-set. -/
theorem C4_duplicate_uid_flagging (sp tp : String) (fexists : String → Bool)
    (readRaw : String → Except String Table) (sub tst : Table) (cells : List String)
    (h1 : fexists sp = true) (h2 : fexists tp = true)
    (h3 : readRaw sp = Except.ok sub) (h4 : readRaw tp = Except.ok tst)
    (h5 : sub ≠ [])
    (h6 : sub.all (fun row => row.length == 3) = true)
    (h7 : firstCellsE (tst.drop 1) = Except.ok cells)
    (rs : List CheckResult)
    (hrun : run_all_validations ⟨some sp, tp⟩ fexists readRaw = Except.ok rs)
    (k : Nat) (uid : String) :
    dupFail (k + 2) uid ∈ rs ↔
      (GoodAt (sub.drop 1) k uid ∧ ∃ j, j < k ∧ GoodAt (sub.drop 1) j uid) := by
  have hr := run_reaches sp tp fexists readRaw sub tst cells h1 h2 h3 h4 h5 h6 h7
  rw [hrun] at hr
  have hrs := Except.ok.inj hr
  subst hrs
  constructor
  · intro hm
    rcases List.mem_append.mp hm with hm | hagg
    · rcases List.mem_append.mp hm with hpre | hloop
      · simp only [List.mem_cons, List.not_mem_nil, or_false] at hpre
        rcases hpre with h | h | h
        · exact absurd h (dupFail_ne_subExistsOk (k + 2) uid)
        · exact absurd h (dupFail_ne_testExistsOk (k + 2) uid)
        · exact absurd h (dupFail_ne_structOk (k + 2) uid)
      · obtain ⟨k2, hik, hg, hc⟩ :=
          (dup_mem_perRowLoop (sub.drop 1) 2 [] (k + 2) uid).mp hloop
        have hkk : k2 = k := by omega
        subst hkk
        rcases hc with hc | hj
        · exact absurd hc (List.not_mem_nil uid)
        · exact ⟨hg, hj⟩
    · exact absurd hagg (dupFail_not_mem_aggregates (k + 2) uid _ _ _)
  · rintro ⟨hg, j, hj, hgj⟩
    apply List.mem_append.mpr
    left
    apply List.mem_append.mpr
    right
    exact (dup_mem_perRowLoop (sub.drop 1) 2 [] (k + 2) uid).mpr
      ⟨k, by omega, hg, Or.inr ⟨j, hj, hgj⟩⟩

/-- C4 witness: a run whose submission repeats uid `u1` in rows 2 and 3; the
theorem is applied at row index 1 (row number 3). -/
theorem C4_witness :
    ([["uid", "type", "request"], ["u1", "GET", "/a"], ["u1", "GET", "/b"]] : Table) ≠ [] ∧
    (dupFail 3 ("u1") ∈ ([subExistsOk, testExistsOk, structOk, dupFail 3 ("u1"),
        countFail 1 2, missingOk, extraOk] : List CheckResult) ↔
      (GoodAt [["u1", "GET", "/a"], ["u1", "GET", "/b"]] 1 ("u1") ∧
        ∃ j, j < 1 ∧ GoodAt [["u1", "GET", "/a"], ["u1", "GET", "/b"]] j ("u1"))) :=
  ⟨by decide,
   C4_duplicate_uid_flagging ("s.csv") ("t.csv") (fun _ => true)
     (fun p => if p = "s.csv" then
        Except.ok [["uid", "type", "request"], ["u1", "GET", "/a"], ["u1", "GET", "/b"]]
      else Except.ok [["uid"], ["u1"]])
     [["uid", "type", "request"], ["u1", "GET", "/a"], ["u1", "GET", "/b"]]
     [["uid"], ["u1"]] ["u1"] rfl rfl rfl rfl (by decide) (by decide) rfl
     [subExistsOk, testExistsOk, structOk, dupFail 3 ("u1"), countFail 1 2, missingOk, extraOk]
     rfl 1 ("u1")⟩

/-- C5: a failing read of either file is caught inside the try block and
turned into exactly one failing file-processing result whose detail embeds
the wrapped underlying error message; the two passing existence results
accumulated before the failure are preserved and the sequence is returned
normally. -/
theorem C5_read_failure_caught (sp tp : String) (fexists : String → Bool)
    (readRaw : String → Except String Table) (e : String)
    (h1 : fexists sp = true) (h2 : fexists tp = true)
    (hfail : readRaw sp = Except.error e ∨
      (∃ t, readRaw sp = Except.ok t ∧ readRaw tp = Except.error e)) :
    ∃ p, (p = sp ∨ p = tp) ∧
      run_all_validations ⟨some sp, tp⟩ fexists readRaw =
        Except.ok [subExistsOk, testExistsOk,
          ⟨"Проверка обработки файлов", false,
           some ("Ошибка при обработке файлов: " ++
             ("Не удалось прочитать файл " ++ p ++ ": " ++ e))⟩] := by
  rcases hfail with hs | ⟨t, hok, ht⟩
  · refine ⟨sp, Or.inl rfl, ?_⟩
    simp [run_all_validations, h1, h2, tryBody, readCsv, hs, procFail]
  · refine ⟨tp, Or.inr rfl, ?_⟩
    simp [run_all_validations, h1, h2, tryBody, readCsv, hok, ht, procFail]

/-- C5 witness: a concrete run whose submission read fails. -/
theorem C5_witness :
    (fun _ : String => Except.error ("boom") : String → Except String Table) ("s.csv") =
      Except.error ("boom") ∧
    ∃ p, (p = "s.csv" ∨ p = "t.csv") ∧
      run_all_validations ⟨some ("s.csv"), "t.csv"⟩ (fun _ => true)
          (fun _ => Except.error ("boom")) =
        Except.ok [subExistsOk, testExistsOk,
          ⟨"Проверка обработки файлов", false,
           some ("Ошибка при обработке файлов: " ++
             ("Не удалось прочитать файл " ++ p ++ ": " ++ "boom"))⟩] :=
  ⟨rfl,
   C5_read_failure_caught ("s.csv") ("t.csv") (fun _ => true)
     (fun _ => Except.error ("boom")) ("boom") rfl rfl (Or.inl rfl)⟩

theorem aggregates_parts (rows : List Row) (tuids suids : List String) :
    aggregates rows tuids suids =
      [(if rows.length ≠ tuids.length then countFail tuids.length rows.length else countOk),
       (if tuids.filter (fun u => ¬ suids.contains u) ≠ [] then
          missingFail (tuids.filter (fun u => ¬ suids.contains u)) else missingOk),
       (if suids.filter (fun u => ¬ tuids.contains u) ≠ [] then
          extraFail (suids.filter (fun u => ¬ tuids.contains u)) else extraOk)] := by
  have hsing : ∀ (c : Prop) (inst : Decidable c) (a b : CheckResult),
      (if c then [a] else [b]) = [if c then a else b] := by
    intro c inst a b
    by_cases h : c
    · rw [if_pos h, if_pos h]
    · rw [if_neg h, if_neg h]
  unfold aggregates
  rw [hsing, hsing, hsing]
  rfl

theorem setOfList_length_eq_dedup (l : List String) :
    (setOfList l).length = l.dedup.length :=
  ((List.perm_ext_iff_of_nodup (nodup_setOfList l) l.nodup_dedup).mpr
    (fun a => by rw [mem_setOfList, List.mem_dedup])).length_eq

/-- C8: in every run reaching the aggregate checks, the row-count check
passes iff the number of submission data rows equals the number of distinct
reference uids (the deduplicated first cells of the reference data rows),
and on failure its message reports that distinct count as expected and the
data-row count as found. -/
theorem C8_row_count_check (sp tp : String) (fexists : String → Bool)
    (readRaw : String → Except String Table) (sub tst : Table) (cells : List String)
    (h1 : fexists sp = true) (h2 : fexists tp = true)
    (h3 : readRaw sp = Except.ok sub) (h4 : readRaw tp = Except.ok tst)
    (h5 : sub ≠ [])
    (h6 : sub.all (fun row => row.length == 3) = true)
    (h7 : firstCellsE (tst.drop 1) = Except.ok cells)
    (rs : List CheckResult)
    (hrun : run_all_validations ⟨some sp, tp⟩ fexists readRaw = Except.ok rs) :
    ∃ cnt missR extraR,
      rs = [subExistsOk, testExistsOk, structOk] ++ (perRowLoop (sub.drop 1) 2 []).1
        ++ [cnt, missR, extraR] ∧
      (cnt.passed = true ↔ (sub.drop 1).length = cells.dedup.length) ∧
      ((sub.drop 1).length ≠ cells.dedup.length →
        cnt.detail = some ("Некорректное количество строк: ожидается "
          ++ Nat.repr cells.dedup.length ++ ", найдено "
          ++ Nat.repr (sub.drop 1).length)) := by
  have hr := run_reaches sp tp fexists readRaw sub tst cells h1 h2 h3 h4 h5 h6 h7
  rw [hrun] at hr
  have hrs := Except.ok.inj hr
  subst hrs
  rw [aggregates_parts]
  have hsl := setOfList_length_eq_dedup cells
  refine ⟨_, _, _, rfl, ?_, ?_⟩
  · by_cases hne : (sub.drop 1).length ≠ (setOfList cells).length
    · rw [if_pos hne]
      simp only [countFail]
      constructor
      · intro hf
        cases hf
      · intro heq
        omega
    · rw [if_neg hne]
      simp only [countOk]
      constructor
      · intro _
        omega
      · intro _
        trivial
  · intro hne
    have hne2 : (sub.drop 1).length ≠ (setOfList cells).length := by omega
    rw [if_pos hne2]
    simp only [countFail, hsl]

/-- C7: in every run reaching the aggregate checks, the missing-uids check
and the extra-uids check each pass exactly when their difference set (a
duplicate-free list) is empty, and on failure the detail lists a
lexicographically sorted permutation of the difference set truncated to its
first 5 elements, appending an ellipsis marker exactly when the set has more
than 5 elements. -/
theorem C7_missing_and_extra_checks (sp tp : String) (fexists : String → Bool)
    (readRaw : String → Except String Table) (sub tst : Table) (cells : List String)
    (h1 : fexists sp = true) (h2 : fexists tp = true)
    (h3 : readRaw sp = Except.ok sub) (h4 : readRaw tp = Except.ok tst)
    (h5 : sub ≠ [])
    (h6 : sub.all (fun row => row.length == 3) = true)
    (h7 : firstCellsE (tst.drop 1) = Except.ok cells)
    (rs : List CheckResult)
    (hrun : run_all_validations ⟨some sp, tp⟩ fexists readRaw = Except.ok rs) :
    ∃ cnt missR extraR M E,
      M = (setOfList cells).filter
        (fun u => ¬ (perRowLoop (sub.drop 1) 2 []).2.contains u) ∧
      E = (perRowLoop (sub.drop 1) 2 []).2.filter
        (fun u => ¬ (setOfList cells).contains u) ∧
      rs = [subExistsOk, testExistsOk, structOk] ++ (perRowLoop (sub.drop 1) 2 []).1
        ++ [cnt, missR, extraR] ∧
      M.Nodup ∧ E.Nodup ∧
      (missR.passed = true ↔ M = []) ∧
      (extraR.passed = true ↔ E = []) ∧
      (M ≠ [] → ∃ L : List String, L.Perm M ∧ L.Sorted (fun a b => a ≤ b) ∧
        missR.detail = some ("Отсутствуют записи для uid: "
          ++ String.intercalate (", ") (L.take 5)
          ++ (if M.length > 5 then "..." else ""))) ∧
      (E ≠ [] → ∃ L : List String, L.Perm E ∧ L.Sorted (fun a b => a ≤ b) ∧
        extraR.detail = some ("Обнаружены лишние uid, отсутствующие в test.csv: "
          ++ String.intercalate (", ") (L.take 5)
          ++ (if E.length > 5 then "..." else ""))) := by
  have hr := run_reaches sp tp fexists readRaw sub tst cells h1 h2 h3 h4 h5 h6 h7
  rw [hrun] at hr
  have hrs := Except.ok.inj hr
  subst hrs
  rw [aggregates_parts]
  refine ⟨_, _, _, _, _, rfl, rfl, rfl, ?_, ?_, ?_, ?_, ?_, ?_⟩
  · exact (nodup_setOfList cells).filter _
  · exact (nodup_perRowLoop_seen (sub.drop 1) 2 [] List.nodup_nil).filter _
  · by_cases hm : (setOfList cells).filter
        (fun u => ¬ (perRowLoop (sub.drop 1) 2 []).2.contains u) ≠ []
    · rw [if_pos hm]
      simp only [missingFail]
      constructor
      · intro hf
        cases hf
      · intro heq
        exact absurd heq hm
    · rw [if_neg hm]
      push_neg at hm
      simp only [missingOk]
      exact ⟨fun _ => hm, fun _ => trivial⟩
  · by_cases he : (perRowLoop (sub.drop 1) 2 []).2.filter
        (fun u => ¬ (setOfList cells).contains u) ≠ []
    · rw [if_pos he]
      simp only [extraFail]
      constructor
      · intro hf
        cases hf
      · intro heq
        exact absurd heq he
    · rw [if_neg he]
      push_neg at he
      simp only [extraOk]
      exact ⟨fun _ => he, fun _ => trivial⟩
  · intro hm
    rw [if_pos hm]
    refine ⟨List.insertionSort (fun a b => a ≤ b) _, List.perm_insertionSort _ _,
      List.sorted_insertionSort _ _, ?_⟩
    simp only [missingFail, truncatedList]
    rfl
  · intro he
    rw [if_pos he]
    refine ⟨List.insertionSort (fun a b => a ≤ b) _, List.perm_insertionSort _ _,
      List.sorted_insertionSort _ _, ?_⟩
    simp only [extraFail, truncatedList]
    rfl

/-- C8 witness: a concrete run whose data-row count matches the single
distinct reference uid. -/
theorem C8_witness :
    ([["uid", "type", "request"], ["u1", "GET", "/a"]] : Table) ≠ [] ∧
    (∃ cnt missR extraR,
      ([subExistsOk, testExistsOk, structOk, countOk, missingOk, extraOk] :
          List CheckResult) =
        [subExistsOk, testExistsOk, structOk]
          ++ (perRowLoop
                (List.drop 1 [["uid", "type", "request"], ["u1", "GET", "/a"]]) 2 []).1
          ++ [cnt, missR, extraR] ∧
      (cnt.passed = true ↔
        (List.drop 1 ([["uid", "type", "request"], ["u1", "GET", "/a"]] : Table)).length =
          (["u1"] : List String).dedup.length) ∧
      ((List.drop 1 ([["uid", "type", "request"], ["u1", "GET", "/a"]] : Table)).length ≠
          (["u1"] : List String).dedup.length →
        cnt.detail = some ("Некорректное количество строк: ожидается "
          ++ Nat.repr (["u1"] : List String).dedup.length ++ ", найдено "
          ++ Nat.repr (List.drop 1
              ([["uid", "type", "request"], ["u1", "GET", "/a"]] : Table)).length))) :=
  ⟨by decide,
   C8_row_count_check ("s.csv") ("t.csv") (fun _ => true)
     (fun p => if p = "s.csv" then
        Except.ok [["uid", "type", "request"], ["u1", "GET", "/a"]]
      else Except.ok [["uid"], ["u1"]])
     [["uid", "type", "request"], ["u1", "GET", "/a"]] [["uid"], ["u1"]] ["u1"]
     rfl rfl rfl rfl (by decide) (by decide) rfl
     [subExistsOk, testExistsOk, structOk, countOk, missingOk, extraOk] rfl⟩

/-- C7 witness: a concrete run with one missing reference uid (`u2`) and one
extra submission uid (`u1`). -/
theorem C7_witness :
    ([["uid", "type", "request"], ["u1", "GET", "/a"]] : Table) ≠ [] ∧
    (∃ cnt missR extraR M E,
      M = (setOfList ["u2"]).filter
        (fun u => ¬ (perRowLoop
          (List.drop 1 [["uid", "type", "request"], ["u1", "GET", "/a"]]) 2 []).2.contains u) ∧
      E = (perRowLoop
          (List.drop 1 [["uid", "type", "request"], ["u1", "GET", "/a"]]) 2 []).2.filter
        (fun u => ¬ (setOfList ["u2"]).contains u) ∧
      ([subExistsOk, testExistsOk, structOk, countOk,
          missingFail ((setOfList ["u2"]).filter
            (fun u => ¬ (perRowLoop
              (List.drop 1 [["uid", "type", "request"], ["u1", "GET", "/a"]]) 2
              []).2.contains u)),
          extraFail ((perRowLoop
              (List.drop 1 [["uid", "type", "request"], ["u1", "GET", "/a"]]) 2 []).2.filter
            (fun u => ¬ (setOfList ["u2"]).contains u))] : List CheckResult) =
        [subExistsOk, testExistsOk, structOk]
          ++ (perRowLoop
                (List.drop 1 [["uid", "type", "request"], ["u1", "GET", "/a"]]) 2 []).1
          ++ [cnt, missR, extraR] ∧
      M.Nodup ∧ E.Nodup ∧
      (missR.passed = true ↔ M = []) ∧
      (extraR.passed = true ↔ E = []) ∧
      (M ≠ [] → ∃ L : List String, L.Perm M ∧ L.Sorted (fun a b => a ≤ b) ∧
        missR.detail = some ("Отсутствуют записи для uid: "
          ++ String.intercalate (", ") (L.take 5)
          ++ (if M.length > 5 then "..." else ""))) ∧
      (E ≠ [] → ∃ L : List String, L.Perm E ∧ L.Sorted (fun a b => a ≤ b) ∧
        extraR.detail = some ("Обнаружены лишние uid, отсутствующие в test.csv: "
          ++ String.intercalate (", ") (L.take 5)
          ++ (if E.length > 5 then "..." else "")))) :=
  ⟨by decide,
   C7_missing_and_extra_checks ("s.csv") ("t.csv") (fun _ => true)
     (fun p => if p = "s.csv" then
        Except.ok [["uid", "type", "request"], ["u1", "GET", "/a"]]
      else Except.ok [["uid"], ["u2"]])
     [["uid", "type", "request"], ["u1", "GET", "/a"]] [["uid"], ["u2"]] ["u2"]
     rfl rfl rfl rfl (by decide) (by decide) rfl
     [subExistsOk, testExistsOk, structOk, countOk,
      missingFail ((setOfList ["u2"]).filter
        (fun u => ¬ (perRowLoop
          (List.drop 1 [["uid", "type", "request"], ["u1", "GET", "/a"]]) 2
          []).2.contains u)),
      extraFail ((perRowLoop
          (List.drop 1 [["uid", "type", "request"], ["u1", "GET", "/a"]]) 2 []).2.filter
        (fun u => ¬ (setOfList ["u2"]).contains u))] rfl⟩

theorem perRowLoop_no_failures (rows : List Row) : ∀ (n : Nat) (s : List String),
    (∀ r ∈ rows, ∃ u m p, r = [u, m, p] ∧ u ≠ "" ∧ m ≠ "" ∧ p ≠ ""
      ∧ valid_methods.contains m = true ∧ startswith p ("/") = true) →
    (rows.map (fun r => r.headD "")).Nodup →
    (∀ u ∈ rows.map (fun r => r.headD ""), u ∉ s) →
    (perRowLoop rows n s).1 = [] := by
  induction rows with
  | nil => intro n s _ _ _; rfl
  | cons row rest ih =>
    intro n s hrows hnd hfresh
    obtain ⟨u, m, p, rfl, hu, hm, hp, hvm, hsw⟩ := hrows row (List.mem_cons_self row rest)
    simp only [List.map_cons, List.headD_cons] at hnd hfresh
    have hemp : ¬ (u = "" ∨ m = "" ∨ p = "") := by tauto
    rw [perRowLoop_cons3_good u m p rest n s hemp]
    dsimp only
    have hfr : u ∉ s := hfresh u (List.mem_cons_self u _)
    have hc : ¬ (s.contains u = true) := fun hcc => hfr (contains_iff.mp hcc)
    rw [if_neg hc, if_neg (not_not_intro hvm), if_neg (not_not_intro hsw)]
    simp only [List.nil_append]
    refine ih (n + 1) (setInsert s u)
      (fun r hr => hrows r (List.mem_cons_of_mem _ hr)) (List.Nodup.of_cons hnd) ?_
    intro x hx hmem
    rcases (mem_setInsert s u x).mp hmem with hxs | rfl
    · exact hfresh x (List.mem_cons_of_mem _ hx) hxs
    · exact (List.nodup_cons.mp hnd).1 hx

theorem goodAt_iff_mem_map (rows : List Row)
    (hrows : ∀ r ∈ rows, ∃ u m p, r = [u, m, p] ∧ u ≠ "" ∧ m ≠ "" ∧ p ≠ ""
      ∧ valid_methods.contains m = true ∧ startswith p ("/") = true)
    (x : String) :
    (∃ k, GoodAt rows k x) ↔ x ∈ rows.map (fun r => r.headD "") := by
  constructor
  · rintro ⟨k, hk⟩
    rw [GoodAt] at hk
    cases hg : rows.get? k with
    | none =>
      rw [hg] at hk
      cases hk
    | some row =>
      rw [hg] at hk
      have hmem : row ∈ rows := List.get?_mem hg
      obtain ⟨u, m, p, rfl, hu, hm, hp, _, _⟩ := hrows row hmem
      have hemp : ¬ (u = "" ∨ m = "" ∨ p = "") := by tauto
      simp only [Option.some_bind, goodUid, if_neg hemp, Option.some.injEq] at hk
      exact List.mem_map.mpr ⟨[u, m, p], hmem, by simpa using hk⟩
  · intro hx
    obtain ⟨row, hmem, hxx⟩ := List.mem_map.mp hx
    obtain ⟨u, m, p, rfl, hu, hm, hp, _, _⟩ := hrows row hmem
    obtain ⟨k, hk⟩ := List.mem_iff_get?.mp hmem
    refine ⟨k, ?_⟩
    rw [GoodAt, hk]
    have hemp : ¬ (u = "" ∨ m = "" ∨ p = "") := by tauto
    simp only [Option.some_bind, goodUid, if_neg hemp, Option.some.injEq]
    simpa using hxx

/-- C6: for every valid input pair — both files exist and parse, the
submission has a header row of 3 cells, every data row has exactly 3
non-empty cells with a method from the valid set and a slash-prefixed path,
every reference uid appears exactly once among the submission uids and no
other uid appears — every result returned by `run_all_validations` has
`passed = true`. -/
theorem C6_valid_inputs_all_pass (sp tp : String) (fexists : String → Bool)
    (readRaw : String → Except String Table)
    (header : Row) (rows : List Row) (tst : Table) (cells : List String)
    (rs : List CheckResult)
    (h1 : fexists sp = true) (h2 : fexists tp = true)
    (h3 : readRaw sp = Except.ok (header :: rows))
    (h4 : readRaw tp = Except.ok tst)
    (hhdr : header.length = 3)
    (h7 : firstCellsE (tst.drop 1) = Except.ok cells)
    (hrows : ∀ r ∈ rows, ∃ u m p, r = [u, m, p] ∧ u ≠ "" ∧ m ≠ "" ∧ p ≠ ""
      ∧ valid_methods.contains m = true ∧ startswith p ("/") = true)
    (hcnt : ∀ u ∈ cells, (rows.map (fun r => r.headD "")).count u = 1)
    (hcov : ∀ u ∈ rows.map (fun r => r.headD ""), u ∈ cells)
    (hrun : run_all_validations ⟨some sp, tp⟩ fexists readRaw = Except.ok rs) :
    ∀ r ∈ rs, r.passed = true := by
  have h6 : (header :: rows).all (fun row => row.length == 3) = true := by
    rw [List.all_eq_true]
    intro x hx
    rcases List.mem_cons.mp hx with rfl | hx
    · simpa using hhdr
    · obtain ⟨u, m2, p2, rfl, _⟩ := hrows x hx
      rfl
  have h5 : (header :: rows) ≠ [] := by simp
  have hr := run_reaches sp tp fexists readRaw (header :: rows) tst cells h1 h2 h3 h4 h5 h6 h7
  rw [hrun] at hr
  have hrs := Except.ok.inj hr
  subst hrs
  show ∀ r ∈ ([subExistsOk, testExistsOk, structOk] ++ (perRowLoop rows 2 []).1
    ++ aggregates rows (setOfList cells) (perRowLoop rows 2 []).2), r.passed = true
  have hnd : (rows.map (fun r => r.headD "")).Nodup := by
    rw [List.nodup_iff_count_le_one]
    intro a
    by_cases ha : a ∈ rows.map (fun r => r.headD "")
    · exact le_of_eq (hcnt a (hcov a ha))
    · rw [List.count_eq_zero.mpr ha]
      omega
  have hloop : (perRowLoop rows 2 []).1 = [] :=
    perRowLoop_no_failures rows 2 [] hrows hnd (fun u _ => List.not_mem_nil u)
  have hseen : ∀ x, x ∈ (perRowLoop rows 2 []).2 ↔ x ∈ rows.map (fun r => r.headD "") := by
    intro x
    rw [mem_perRowLoop_seen rows 2 [] x]
    simp only [List.not_mem_nil, false_or]
    exact goodAt_iff_mem_map rows hrows x
  have hmc : ∀ u, u ∈ rows.map (fun r => r.headD "") ↔ u ∈ cells := by
    intro u
    constructor
    · exact hcov u
    · intro hu
      have hcu := hcnt u hu
      have : 0 < (rows.map (fun r => r.headD "")).count u := by omega
      exact List.count_pos_iff_mem.mp this
  have hperm : (rows.map (fun r => r.headD "")).Perm (setOfList cells) :=
    (List.perm_ext_iff_of_nodup hnd (nodup_setOfList cells)).mpr
      (fun a => by rw [hmc a, mem_setOfList])
  have hlen2 : rows.length = (setOfList cells).length := by
    have hpl := hperm.length_eq
    simpa using hpl
  have hc1 : ¬ rows.length ≠ (setOfList cells).length := by omega
  have hm1 : (setOfList cells).filter
      (fun u => ¬ (perRowLoop rows 2 []).2.contains u) = [] := by
    rw [List.filter_eq_nil_iff]
    intro a ha
    have ham : a ∈ (perRowLoop rows 2 []).2 :=
      (hseen a).mpr ((hmc a).mpr ((mem_setOfList cells a).mp ha))
    simpa using ham
  have he1 : (perRowLoop rows 2 []).2.filter
      (fun u => ¬ (setOfList cells).contains u) = [] := by
    rw [List.filter_eq_nil_iff]
    intro a ha
    have ham : a ∈ setOfList cells :=
      (mem_setOfList cells a).mpr ((hmc a).mp ((hseen a).mp ha))
    simpa using ham
  rw [aggregates_parts, hloop, hm1, he1, if_neg hc1, if_neg (by simp), if_neg (by simp)]
  intro r hr
  simp only [List.append_nil, List.nil_append, List.mem_append, List.mem_cons,
    List.not_mem_nil, or_false] at hr
  rcases hr with (rfl | rfl | rfl) | (rfl | rfl | rfl) <;> rfl

/-- C6 witness: a concrete fully valid run. -/
theorem C6_witness :
    (["uid", "type", "request"] : Row).length = 3 ∧
    run_all_validations ⟨some ("s.csv"), "t.csv"⟩ (fun _ => true)
        (fun p => if p = "s.csv" then
           Except.ok [["uid", "type", "request"], ["u1", "GET", "/a"]]
         else Except.ok [["uid"], ["u1"]]) =
      Except.ok [subExistsOk, testExistsOk, structOk, countOk, missingOk, extraOk] ∧
    ∀ r ∈ ([subExistsOk, testExistsOk, structOk, countOk, missingOk, extraOk] :
        List CheckResult), r.passed = true :=
  ⟨rfl, rfl,
   C6_valid_inputs_all_pass ("s.csv") ("t.csv") (fun _ => true)
     (fun p => if p = "s.csv" then
        Except.ok [["uid", "type", "request"], ["u1", "GET", "/a"]]
      else Except.ok [["uid"], ["u1"]])
     ["uid", "type", "request"] [["u1", "GET", "/a"]] [["uid"], ["u1"]] ["u1"]
     [subExistsOk, testExistsOk, structOk, countOk, missingOk, extraOk]
     rfl rfl rfl rfl rfl rfl
     (by intro r hr
         simp only [List.mem_cons, List.not_mem_nil, or_false] at hr
         subst hr
         exact ⟨"u1", "GET", "/a", rfl, by decide, by decide, by decide, by decide, by decide⟩)
     (by decide) (by decide) rfl⟩

theorem detail_perRowLoop (rows : List Row) : ∀ (n : Nat) (s : List String)
    (r : CheckResult), r ∈ (perRowLoop rows n s).1 →
    (r.passed = false ↔ r.detail ≠ none) := by
  induction rows with
  | nil =>
    intro n s r h
    simp [perRowLoop_nil] at h
  | cons row rest ih =>
    intro n s r h
    by_cases hlen : row.length = 3
    · obtain ⟨a, b, c, rfl⟩ := List.length_eq_three.mp hlen
      by_cases hemp : a = "" ∨ b = "" ∨ c = ""
      · rw [perRowLoop_cons3_empty a b c rest n s hemp] at h
        rcases List.mem_cons.mp h with rfl | h
        · simp [emptyFail]
        · exact ih (n + 1) s r h
      · rw [perRowLoop_cons3_good a b c rest n s hemp] at h
        dsimp only at h
        rcases List.mem_append.mp h with h2 | h2
        · rcases List.mem_append.mp h2 with h3 | h3
          · rcases List.mem_append.mp h3 with h4 | h4
            · obtain ⟨_, rfl⟩ := mem_ite_singleton.mp h4
              simp [dupFail]
            · obtain ⟨_, rfl⟩ := mem_ite_singleton.mp h4
              simp [methodFail]
          · obtain ⟨_, rfl⟩ := mem_ite_singleton.mp h3
            simp [pathFail]
        · exact ih (n + 1) (setInsert s a) r h2
    · rw [perRowLoop_cons_ne3 row rest n s hlen] at h
      exact ih (n + 1) s r h

theorem detail_aggregates (rows : List Row) (tuids suids : List String) (r : CheckResult)
    (h : r ∈ aggregates rows tuids suids) : (r.passed = false ↔ r.detail ≠ none) := by
  rw [aggregates_parts] at h
  rcases List.mem_cons.mp h with rfl | h
  · split <;> simp [countFail, countOk]
  rcases List.mem_cons.mp h with rfl | h
  · split <;> simp [missingFail, missingOk]
  rcases List.mem_cons.mp h with rfl | h
  · split <;> simp [extraFail, extraOk]
  simp at h

theorem detail_tryBody (sp tp : String) (readRaw : String → Except String Table)
    (r : CheckResult) (h : r ∈ tryBody sp tp readRaw) :
    (r.passed = false ↔ r.detail ≠ none) := by
  unfold tryBody at h
  split at h
  · obtain rfl := List.mem_singleton.mp h
    simp [procFail]
  · split at h
    · obtain rfl := List.mem_singleton.mp h
      simp [procFail]
    · split at h
      · obtain rfl := List.mem_singleton.mp h
        simp [structEmptyFail]
      · split at h
        · obtain rfl := List.mem_singleton.mp h
          simp [structShapeFail]
        · rcases List.mem_cons.mp h with rfl | h
          · simp [structOk]
          · split at h
            · obtain rfl := List.mem_singleton.mp h
              simp [procFail]
            · rcases List.mem_append.mp h with h2 | h2
              · exact detail_perRowLoop _ 2 [] r h2
              · exact detail_aggregates _ _ _ r h2

/-- C9: in every run, every returned result either passed and carries no
detail or failed and carries a diagnostic detail: the detail is present
exactly when the check failed. -/
theorem C9_detail_iff_failed (v : SubmissionValidator) (fexists : String → Bool)
    (readRaw : String → Except String Table) (rs : List CheckResult) (r : CheckResult)
    (hrun : run_all_validations v fexists readRaw = Except.ok rs) (hr : r ∈ rs) :
    (r.passed = false ↔ r.detail ≠ none) := by
  rcases v with ⟨vsp, vtp⟩
  unfold run_all_validations at hrun
  rcases vsp with _ | sp
  · cases hrun
  · dsimp only at hrun
    split at hrun
    · have hrs := Except.ok.inj hrun
      subst hrs
      obtain rfl := List.mem_singleton.mp hr
      simp [subExistsFail]
    · split at hrun
      · have hrs := Except.ok.inj hrun
        subst hrs
        rcases List.mem_cons.mp hr with rfl | hr
        · simp [subExistsOk]
        · obtain rfl := List.mem_singleton.mp hr
          simp [testExistsFail]
      · have hrs := Except.ok.inj hrun
        subst hrs
        rcases List.mem_append.mp hr with h2 | h2
        · rcases List.mem_cons.mp h2 with rfl | h2
          · simp [subExistsOk]
          · obtain rfl := List.mem_singleton.mp h2
            simp [testExistsOk]
        · exact detail_tryBody sp vtp readRaw r h2

/-- C9 witness: the theorem applied to the failing result of a run whose
submission file is absent. -/
theorem C9_witness :
    run_all_validations ⟨some ("x.csv"), "t.csv"⟩ (fun _ => false) (fun _ => Except.ok []) =
      Except.ok [subExistsFail ("x.csv")] ∧
    ((subExistsFail ("x.csv")).passed = false ↔ (subExistsFail ("x.csv")).detail ≠ none) :=
  ⟨rfl,
   C9_detail_iff_failed ⟨some ("x.csv"), "t.csv"⟩ (fun _ => false) (fun _ => Except.ok [])
     [subExistsFail ("x.csv")] (subExistsFail ("x.csv")) rfl (List.mem_singleton.mpr rfl)⟩

/-- C10: a submission data row with an empty cell contributes nothing to the
seen-uid set: the final seen-set holds exactly the uids of well-formed rows;
a row carrying the same uid with no earlier well-formed occurrence is never
flagged as a duplicate; and when no well-formed row carries the uid at all
while it belongs to the reference set, the missing-uids coverage check fails
and lists it among the missing uids — even though the uid appears textually
in the submission. -/
theorem C10_empty_cell_row_contributes_nothing (sp tp : String) (fexists : String → Bool)
    (readRaw : String → Except String Table) (sub tst : Table) (cells : List String)
    (rs : List CheckResult) (k : Nat) (uid m p : String)
    (h1 : fexists sp = true) (h2 : fexists tp = true)
    (h3 : readRaw sp = Except.ok sub) (h4 : readRaw tp = Except.ok tst)
    (h5 : sub ≠ [])
    (h6 : sub.all (fun row => row.length == 3) = true)
    (h7 : firstCellsE (tst.drop 1) = Except.ok cells)
    (hrun : run_all_validations ⟨some sp, tp⟩ fexists readRaw = Except.ok rs)
    (hk : (sub.drop 1).get? k = some [uid, m, p])
    (hemp : uid = "" ∨ m = "" ∨ p = "") :
    (∀ x, x ∈ (perRowLoop (sub.drop 1) 2 []).2 ↔ ∃ j, GoodAt (sub.drop 1) j x) ∧
    (∀ k2, GoodAt (sub.drop 1) k2 uid → (∀ j, j < k2 → ¬ GoodAt (sub.drop 1) j uid) →
      dupFail (k2 + 2) uid ∉ rs) ∧
    ((∀ j, ¬ GoodAt (sub.drop 1) j uid) → uid ∈ cells →
      ∃ cnt extraR M,
        M = (setOfList cells).filter
          (fun u => ¬ (perRowLoop (sub.drop 1) 2 []).2.contains u) ∧
        rs = [subExistsOk, testExistsOk, structOk] ++ (perRowLoop (sub.drop 1) 2 []).1
          ++ [cnt, missingFail M, extraR] ∧
        uid ∈ M ∧ (missingFail M).passed = false) := by
  have hr := run_reaches sp tp fexists readRaw sub tst cells h1 h2 h3 h4 h5 h6 h7
  rw [hrun] at hr
  have hrs := Except.ok.inj hr
  subst hrs
  refine ⟨?_, ?_, ?_⟩
  · intro x
    rw [mem_perRowLoop_seen (sub.drop 1) 2 [] x]
    simp
  · intro k2 hg hnone hmem
    rcases List.mem_append.mp hmem with hmem | hagg
    · rcases List.mem_append.mp hmem with hpre | hloop
      · simp only [List.mem_cons, List.not_mem_nil, or_false] at hpre
        rcases hpre with heq | heq | heq
        · exact dupFail_ne_subExistsOk (k2 + 2) uid heq
        · exact dupFail_ne_testExistsOk (k2 + 2) uid heq
        · exact dupFail_ne_structOk (k2 + 2) uid heq
      · obtain ⟨k3, hik, hg3, hc⟩ :=
          (dup_mem_perRowLoop (sub.drop 1) 2 [] (k2 + 2) uid).mp hloop
        have hkk : k3 = k2 := by omega
        subst hkk
        rcases hc with hc | ⟨j, hj, hgj⟩
        · exact List.not_mem_nil uid hc
        · exact hnone j hj hgj
    · exact dupFail_not_mem_aggregates (k2 + 2) uid _ _ _ hagg
  · intro hna huid
    have hseen : uid ∉ (perRowLoop (sub.drop 1) 2 []).2 := by
      intro hmem
      rcases (mem_perRowLoop_seen (sub.drop 1) 2 [] uid).mp hmem with hin | ⟨j, hj⟩
      · exact List.not_mem_nil uid hin
      · exact hna j hj
    have hM : uid ∈ (setOfList cells).filter
        (fun u => ¬ (perRowLoop (sub.drop 1) 2 []).2.contains u) := by
      rw [List.mem_filter]
      exact ⟨(mem_setOfList cells uid).mpr huid, by simpa using hseen⟩
    have hMne : (setOfList cells).filter
        (fun u => ¬ (perRowLoop (sub.drop 1) 2 []).2.contains u) ≠ [] :=
      List.ne_nil_of_mem hM
    refine ⟨(if (sub.drop 1).length ≠ (setOfList cells).length then
        countFail (setOfList cells).length (sub.drop 1).length else countOk),
      (if (perRowLoop (sub.drop 1) 2 []).2.filter
          (fun u => ¬ (setOfList cells).contains u) ≠ [] then
        extraFail ((perRowLoop (sub.drop 1) 2 []).2.filter
          (fun u => ¬ (setOfList cells).contains u))
      else extraOk),
      (setOfList cells).filter (fun u => ¬ (perRowLoop (sub.drop 1) 2 []).2.contains u),
      rfl, ?_, hM, rfl⟩
    rw [aggregates_parts, if_pos hMne]

/-- C10 witness: a run whose single data row `u1;;/a` has an empty method
cell, with uid `u1` in the reference set. -/
theorem C10_witness :
    ((List.drop 1 ([["uid", "type", "request"], ["u1", "", "/a"]] : Table)).get? 0 =
      some ["u1", "", "/a"]) ∧
    (("u1" : String) = "" ∨ ("" : String) = "" ∨ ("/a" : String) = "") ∧
    ((∀ x, x ∈ (perRowLoop
        (List.drop 1 [["uid", "type", "request"], ["u1", "", "/a"]]) 2 []).2
        ↔ ∃ j, GoodAt (List.drop 1 [["uid", "type", "request"], ["u1", "", "/a"]]) j x) ∧
     (∀ k2, GoodAt (List.drop 1 [["uid", "type", "request"], ["u1", "", "/a"]]) k2 ("u1") →
        (∀ j, j < k2 →
          ¬ GoodAt (List.drop 1 [["uid", "type", "request"], ["u1", "", "/a"]]) j ("u1")) →
        dupFail (k2 + 2) ("u1") ∉ ([subExistsOk, testExistsOk, structOk, emptyFail 2,
          countOk, missingFail ["u1"], extraOk] : List CheckResult)) ∧
     ((∀ j, ¬ GoodAt (List.drop 1 [["uid", "type", "request"], ["u1", "", "/a"]]) j ("u1")) →
        ("u1" : String) ∈ (["u1"] : List String) →
        ∃ cnt extraR M,
          M = (setOfList ["u1"]).filter
            (fun u => ¬ (perRowLoop
              (List.drop 1 [["uid", "type", "request"], ["u1", "", "/a"]]) 2
              []).2.contains u) ∧
          ([subExistsOk, testExistsOk, structOk, emptyFail 2, countOk,
            missingFail ["u1"], extraOk] : List CheckResult) =
            [subExistsOk, testExistsOk, structOk]
              ++ (perRowLoop
                  (List.drop 1 [["uid", "type", "request"], ["u1", "", "/a"]]) 2 []).1
              ++ [cnt, missingFail M, extraR] ∧
          ("u1" : String) ∈ M ∧ (missingFail M).passed = false)) :=
  ⟨rfl, by decide,
   C10_empty_cell_row_contributes_nothing ("s.csv") ("t.csv") (fun _ => true)
     (fun q => if q = "s.csv" then Except.ok [["uid", "type", "request"], ["u1", "", "/a"]]
      else Except.ok [["uid"], ["u1"]])
     [["uid", "type", "request"], ["u1", "", "/a"]] [["uid"], ["u1"]] ["u1"]
     [subExistsOk, testExistsOk, structOk, emptyFail 2, countOk, missingFail ["u1"], extraOk]
     0 ("u1") ("") ("/a")
     rfl rfl rfl rfl (by decide) (by decide) rfl rfl rfl (by decide)⟩

end Trader
